import Mathlib

/-
Verification development for the goose workstream orchestrator
(src/ui/text/src: client.ts, worktree.ts, workstream-manager.ts).

The TypeScript sources are shallowly embedded as pure Lean functions.
JavaScript Maps are modelled as association lists with
replace-on-insert semantics; JavaScript Dates are abstract Nat clock
values threaded as a parameter; uuid generation is a threaded fresh
string; promise resolutions, handler invocations and child-process
invocations appear as explicit effect values returned alongside the
updated state.  Fields that carry the JavaScript value undefined are
modelled as Option; JavaScript string truthiness (undefined, null and
the empty string are falsy) is modelled explicitly at each use site.
-/

namespace Goose

/-! ## JavaScript Map model: association lists with replace-on-insert -/

def mapLookup {K V : Type} [DecidableEq K] : List (K × V) → K → Option V
  | [], _ => none
  | (k1, v1) :: rest, k => if k1 = k then some v1 else mapLookup rest k

def mapInsert {K V : Type} [DecidableEq K] : List (K × V) → K → V → List (K × V)
  | [], k, v => [(k, v)]
  | (k1, v1) :: rest, k, v =>
      if k1 = k then (k, v) :: rest else (k1, v1) :: mapInsert rest k v

def mapErase {K V : Type} [DecidableEq K] : List (K × V) → K → List (K × V)
  | [], _ => []
  | (k1, v1) :: rest, k =>
      if k1 = k then mapErase rest k else (k1, v1) :: mapErase rest k

theorem mapLookup_insert_self {K V : Type} [DecidableEq K]
    (m : List (K × V)) (k : K) (v : V) :
    mapLookup (mapInsert m k v) k = some v := by
  induction m with
  | nil => simp [mapInsert, mapLookup]
  | cons p rest ih =>
      obtain ⟨k1, v1⟩ := p
      by_cases h : k1 = k
      · simp [mapInsert, h, mapLookup]
      · simp [mapInsert, h, mapLookup, ih]

theorem mapLookup_insert_of_ne {K V : Type} [DecidableEq K]
    (m : List (K × V)) (k k' : K) (v : V) (hne : k' ≠ k) :
    mapLookup (mapInsert m k v) k' = mapLookup m k' := by
  induction m with
  | nil => simp [mapInsert, mapLookup, Ne.symm hne]
  | cons p rest ih =>
      obtain ⟨k1, v1⟩ := p
      by_cases h : k1 = k
      · subst h
        simp [mapInsert, mapLookup, Ne.symm hne]
      · simp [mapInsert, h, mapLookup, ih]

theorem mapLookup_erase_self {K V : Type} [DecidableEq K]
    (m : List (K × V)) (k : K) :
    mapLookup (mapErase m k) k = none := by
  induction m with
  | nil => simp [mapErase, mapLookup]
  | cons p rest ih =>
      obtain ⟨k1, v1⟩ := p
      by_cases h : k1 = k
      · simp [mapErase, h, ih]
      · simp [mapErase, h, mapLookup, ih]

theorem mapLookup_erase_of_ne {K V : Type} [DecidableEq K]
    (m : List (K × V)) (k k' : K) (hne : k' ≠ k) :
    mapLookup (mapErase m k) k' = mapLookup m k' := by
  induction m with
  | nil => simp [mapErase]
  | cons p rest ih =>
      obtain ⟨k1, v1⟩ := p
      by_cases h : k1 = k
      · subst h
        simp [mapErase, mapLookup, Ne.symm hne, ih]
      · simp [mapErase, h, mapLookup, ih]

theorem mapErase_erase_self {K V : Type} [DecidableEq K]
    (m : List (K × V)) (k : K) :
    mapErase (mapErase m k) k = mapErase m k := by
  induction m with
  | nil => simp [mapErase]
  | cons p rest ih =>
      obtain ⟨k1, v1⟩ := p
      by_cases h : k1 = k
      · simp [mapErase, h, ih]
      · simp [mapErase, h, ih]

theorem mapLookup_erase_isSome {K V : Type} [DecidableEq K]
    (m : List (K × V)) (k k' : K)
    (h : (mapLookup (mapErase m k) k').isSome) :
    (mapLookup m k').isSome := by
  by_cases hk : k' = k
  · subst hk
    rw [mapLookup_erase_self] at h
    exact absurd h (by simp)
  · rwa [mapLookup_erase_of_ne m k k' hk] at h

/-! ## Name sanitizer (workstream-manager.ts, createWorkstream line 79)

`name.toLowerCase().replace(/[^a-z0-9-]/g, "-").slice(0, 50)`.
Lower-casing is modelled per character; the replace step maps every
character outside [a-z0-9-] to a dash, and slice keeps the first 50. -/

def allowedChar (c : Char) : Bool :=
  (('a' ≤ c) && (c ≤ 'z')) || (('0' ≤ c) && (c ≤ '9')) || (c = '-')

def sanitizeName (name : String) : String :=
  String.mk ((((name.toList.map Char.toLower).map
    (fun c => if allowedChar c then c else '-'))).take 50)

/-- Claim C7: every sanitized workstream name contains only characters in
[a-z0-9-] and has length at most 50, and sanitizing "Hello, World! 123"
yields "hello--world--123". -/
theorem claim_C7 :
    (∀ name : String,
      ((sanitizeName name).toList.all allowedChar = true) ∧
      (sanitizeName name).length ≤ 50) ∧
    sanitizeName "Hello, World! 123" = "hello--world--123" := by
  constructor
  · intro name
    constructor
    · rw [List.all_eq_true]
      intro c hc
      have hc2 : c ∈ (name.toList.map Char.toLower).map
          (fun c => if allowedChar c then c else '-') :=
        List.take_subset _ _ hc
      obtain ⟨d, _, rfl⟩ := List.mem_map.mp hc2
      by_cases h : allowedChar d = true
      · rw [if_pos h]
        exact h
      · rw [if_neg h]
        decide
    · exact List.length_take_le _ _
  · decide

/-! ## Envelope data model (client.ts, AcpMessage and the params shapes)

The params field of an envelope is duck-typed in the source; it is
modelled as one structure holding every optional field either shape
reads, each field an Option because the JavaScript value may be
undefined.  The result field is an opaque JSON payload, modelled as an
optional string that the embedded code only moves around. -/

inductive JsonId
  | str (s : String)
  | num (n : Nat)
deriving DecidableEq

structure ErrorObj where
  code : Int
  message : String
deriving DecidableEq

structure UpdateContent where
  type : Option String := none
  text : Option String := none
deriving DecidableEq

structure UpdateFields where
  status : Option String := none
  content : Option (List String) := none
  title : Option String := none
  rawInput : Option String := none
deriving DecidableEq

structure SessionUpdate where
  sessionUpdate : Option String := none
  content : Option UpdateContent := none
  id : Option String := none
  title : Option String := none
  status : Option String := none
  fields : Option UpdateFields := none
deriving DecidableEq

structure ToolCallUpdateParam where
  id : Option String := none
  fields : Option UpdateFields := none
deriving DecidableEq

structure PermissionOption where
  id : Option String := none
  label : Option String := none
  kind : Option String := none
deriving DecidableEq

structure SessionParams where
  sessionId : Option String := none
  update : Option SessionUpdate := none
  toolCallUpdate : Option ToolCallUpdateParam := none
  options : Option (List PermissionOption) := none
deriving DecidableEq

structure AcpMessage where
  jsonrpc : String := "2.0"
  id : Option JsonId := none
  method : Option String := none
  params : Option SessionParams := none
  result : Option String := none
  error : Option ErrorObj := none
deriving DecidableEq

/-- JavaScript truthiness of a string-or-undefined value: undefined and
the empty string are falsy. -/
def jsTruthyStr : Option String → Bool
  | none => false
  | some s => s != ""

/-! ## Protocol parser (client.ts, parseSessionUpdate, lines 209-264)

The source reads params.update?.sessionUpdate after casting params,
so an envelope with method "session/update" (or "request_permission")
whose params value is undefined raises a TypeError when the field is
read; this is modelled as Except.error ().  All other field accesses
use optional chaining and tolerate absent fields. -/

inductive ParseResult
  | text (sessionId : Option String) (data : String)
  | thought (sessionId : Option String) (data : String)
  | toolCall (sessionId : Option String) (id title status : Option String)
  | toolUpdate (sessionId : Option String) (id status : Option String)
      (content : Option (List String))
  | permissionRequest (sessionId : Option String) (data : SessionParams)
  | unknown
deriving DecidableEq

def parseSessionUpdate (message : AcpMessage) : Except Unit ParseResult :=
  if message.method = some "session/update" then
    match message.params with
    | none => Except.error ()
    | some params =>
      match params.update.bind SessionUpdate.sessionUpdate with
      | some "agent_message_chunk" =>
          Except.ok (ParseResult.text params.sessionId
            (((params.update.bind SessionUpdate.content).bind UpdateContent.text).getD ""))
      | some "agent_thought_chunk" =>
          Except.ok (ParseResult.thought params.sessionId
            (((params.update.bind SessionUpdate.content).bind UpdateContent.text).getD ""))
      | some "tool_call" =>
          Except.ok (ParseResult.toolCall params.sessionId
            (params.update.bind SessionUpdate.id)
            (params.update.bind SessionUpdate.title)
            (params.update.bind SessionUpdate.status))
      | some "tool_call_update" =>
          Except.ok (ParseResult.toolUpdate params.sessionId
            (params.update.bind SessionUpdate.id)
            ((params.update.bind SessionUpdate.fields).bind UpdateFields.status)
            ((params.update.bind SessionUpdate.fields).bind UpdateFields.content))
      | _ => Except.ok ParseResult.unknown
  else if message.method = some "request_permission" then
    match message.params with
    | none => Except.error ()
    | some params =>
        Except.ok (ParseResult.permissionRequest params.sessionId params)
  else Except.ok ParseResult.unknown

/-! ## Transport client (client.ts, AcpClient)

Promise settlements, handler invocations and fan-out to the general
message-handler list are surfaced as explicit actions.  The pending
map stores resolver pairs, modelled by presence of the key. -/

inductive ClientAction
  | settleResolve (id : JsonId) (result : Option String)
  | settleReject (id : JsonId) (message : String)
  | invokeHandler (method : String) (message : AcpMessage)
  | forward (message : AcpMessage)
deriving DecidableEq

structure ClientState where
  sessionId : Option String := none
  eventSourceOpen : Bool := false
  requestId : Nat := 0
  pendingRequests : List (JsonId × Unit) := []
  requestHandlers : List (String × Unit) := []
deriving DecidableEq

/-- client.ts handleMessage, lines 67-99: settle a matching pending
call, else dispatch a peer request to a registered handler, else
forward to the message-handler list. -/
def handleMessage (st : ClientState) (message : AcpMessage) :
    ClientState × List ClientAction :=
  match message.id with
  | some i =>
      if (mapLookup st.pendingRequests i).isSome then
        ({ st with pendingRequests := mapErase st.pendingRequests i },
         [match message.error with
          | some e => ClientAction.settleReject i e.message
          | none => ClientAction.settleResolve i message.result])
      else if jsTruthyStr message.method then
        match message.method with
        | some m =>
            if (mapLookup st.requestHandlers m).isSome then
              (st, [ClientAction.invokeHandler m message])
            else (st, [ClientAction.forward message])
        | none => (st, [ClientAction.forward message])
      else (st, [ClientAction.forward message])
  | none => (st, [ClientAction.forward message])

/-- client.ts sendRequest, lines 125-135: fails when no session is
established, otherwise registers a fresh monotonically increased id in
the pending map and posts the request envelope. -/
def sendRequest (st : ClientState) (method : String) (params : Option SessionParams) :
    Except String (ClientState × AcpMessage) :=
  match st.sessionId with
  | none => Except.error "Not connected"
  | some _ =>
      let id := st.requestId + 1
      Except.ok
        ({ st with requestId := id,
                   pendingRequests := mapInsert st.pendingRequests (JsonId.num id) () },
         { id := some (JsonId.num id), method := some method, params := params })

/-- client.ts sendNotification, lines 137-140. -/
def sendNotification (st : ClientState) (method : String) (params : Option SessionParams) :
    Except String AcpMessage :=
  match st.sessionId with
  | none => Except.error "Not connected"
  | some _ => Except.ok { method := some method, params := params }

/-- client.ts disconnect, lines 165-171: closes the stream, clears the
session id and both maps.  pendingRequests.clear() drops the resolvers
without invoking them, so no settle action is produced. -/
def disconnect (st : ClientState) : ClientState × List ClientAction :=
  ({ st with sessionId := none, eventSourceOpen := false,
             pendingRequests := [], requestHandlers := [] }, [])

/-! Interleaved client traces, for the round-trip property. -/

inductive ClientOp
  | send (method : String) (params : Option SessionParams)
  | recv (message : AcpMessage)

def stepOp (st : ClientState) : ClientOp → ClientState × List ClientAction
  | ClientOp.send m p =>
      match sendRequest st m p with
      | Except.error _ => (st, [])
      | Except.ok (st1, _) => (st1, [])
  | ClientOp.recv msg => handleMessage st msg

def runOps (st : ClientState) : List ClientOp → ClientState × List ClientAction
  | [] => (st, [])
  | op :: rest =>
      let r1 := stepOp st op
      let r2 := runOps r1.1 rest
      (r2.1, r1.2 ++ r2.2)

def settlesOf (acts : List ClientAction) : List JsonId :=
  acts.filterMap (fun a =>
    match a with
    | ClientAction.settleResolve i _ => some i
    | ClientAction.settleReject i _ => some i
    | _ => none)

theorem settlesOf_append (a b : List ClientAction) :
    settlesOf (a ++ b) = settlesOf a ++ settlesOf b := by
  simp [settlesOf, List.filterMap_append]

/-- Every id in the pending map is a numeric id bounded by the counter. -/
def PendingBound (st : ClientState) : Prop :=
  ∀ i, (mapLookup st.pendingRequests i).isSome = true →
    ∃ k, i = JsonId.num k ∧ k ≤ st.requestId

/-- The ids settled so far: pairwise distinct, numerically bounded by
the counter, and no longer pending. -/
def SettledOk (st : ClientState) (settled : List JsonId) : Prop :=
  settled.Nodup ∧
  (∀ i ∈ settled, ∃ k, i = JsonId.num k ∧ k ≤ st.requestId) ∧
  (∀ i ∈ settled, mapLookup st.pendingRequests i = none)

theorem handleMessage_pending (st : ClientState) (msg : AcpMessage) (i : JsonId)
    (hid : msg.id = some i)
    (hp : (mapLookup st.pendingRequests i).isSome = true) :
    handleMessage st msg =
      ({ st with pendingRequests := mapErase st.pendingRequests i },
       [match msg.error with
        | some e => ClientAction.settleReject i e.message
        | none => ClientAction.settleResolve i msg.result]) := by
  unfold handleMessage
  rw [hid]
  simp [hp]

theorem handleMessage_not_pending (st : ClientState) (msg : AcpMessage)
    (h : ∀ i, msg.id = some i → (mapLookup st.pendingRequests i).isSome = false) :
    (handleMessage st msg).1 = st ∧ settlesOf (handleMessage st msg).2 = [] := by
  unfold handleMessage
  cases hid : msg.id with
  | none => simp [settlesOf]
  | some i =>
      by_cases hm : jsTruthyStr msg.method = true
      · cases hmm : msg.method with
        | none => simp [h i hid, hm, hmm, settlesOf]
        | some m =>
            rw [hmm] at hm
            by_cases hh : (mapLookup st.requestHandlers m).isSome = true
            · simp [h i hid, hm, hmm, hh, settlesOf]
            · simp [h i hid, hm, hmm, hh, settlesOf]
      · simp [h i hid, hm, settlesOf]

theorem stepOp_preserves (st : ClientState) (settled : List JsonId) (op : ClientOp)
    (hb : PendingBound st) (hs : SettledOk st settled) :
    PendingBound (stepOp st op).1 ∧
    SettledOk (stepOp st op).1 (settled ++ settlesOf (stepOp st op).2) := by
  cases op with
  | send m p =>
      cases hsid : st.sessionId with
      | none =>
          simp only [stepOp, sendRequest, hsid, settlesOf, List.filterMap_nil,
            List.append_nil]
          exact ⟨hb, hs⟩
      | some s =>
          simp only [stepOp, sendRequest, hsid, settlesOf, List.filterMap_nil,
            List.append_nil]
          refine ⟨?_, hs.1, ?_, ?_⟩
          · intro i hi
            by_cases hik : i = JsonId.num (st.requestId + 1)
            · exact ⟨st.requestId + 1, hik, le_refl _⟩
            · rw [mapLookup_insert_of_ne _ _ _ _ hik] at hi
              obtain ⟨k, hk1, hk2⟩ := hb i hi
              exact ⟨k, hk1, Nat.le_succ_of_le hk2⟩
          · intro i hi
            obtain ⟨k, hk1, hk2⟩ := hs.2.1 i hi
            exact ⟨k, hk1, Nat.le_succ_of_le hk2⟩
          · intro i hi
            obtain ⟨k, hk1, hk2⟩ := hs.2.1 i hi
            have hik : i ≠ JsonId.num (st.requestId + 1) := by
              subst hk1
              intro hcon
              cases hcon
              omega
            rw [mapLookup_insert_of_ne _ _ _ _ hik]
            exact hs.2.2 i hi
  | recv msg =>
      by_cases hset : ∃ i, msg.id = some i ∧
          (mapLookup st.pendingRequests i).isSome = true
      · obtain ⟨i, hid, hp⟩ := hset
        have hrw := handleMessage_pending st msg i hid hp
        simp only [stepOp, hrw]
        have hsettles : settlesOf
            [match msg.error with
             | some e => ClientAction.settleReject i e.message
             | none => ClientAction.settleResolve i msg.result] = [i] := by
          cases msg.error <;> simp [settlesOf]
        rw [hsettles]
        have hnotin : i ∉ settled := by
          intro hmem
          have := hs.2.2 i hmem
          rw [this] at hp
          exact absurd hp (by simp)
        refine ⟨?_, ?_, ?_, ?_⟩
        · intro j hj
          exact hb j (mapLookup_erase_isSome _ _ _ hj)
        · rw [List.nodup_append]
          refine ⟨hs.1, List.nodup_singleton i, ?_⟩
          intro a ha hai
          have hai2 : a = i := by simpa using hai
          exact hnotin (hai2 ▸ ha)
        · intro j hj
          rcases List.mem_append.mp hj with hj1 | hj2
          · exact hs.2.1 j hj1
          · have : j = i := by simpa using hj2
            subst this
            exact hb j hp
        · intro j hj
          rcases List.mem_append.mp hj with hj1 | hj2
          · by_cases hji : j = i
            · subst hji
              exact mapLookup_erase_self _ _
            · rw [mapLookup_erase_of_ne _ _ _ hji]
              exact hs.2.2 j hj1
          · have : j = i := by simpa using hj2
            subst this
            exact mapLookup_erase_self _ _
      · have hnp : ∀ i, msg.id = some i →
            (mapLookup st.pendingRequests i).isSome = false := by
          intro i hid
          cases hcase : (mapLookup st.pendingRequests i).isSome with
          | false => rfl
          | true => exact absurd ⟨i, hid, hcase⟩ hset
        have hrw := handleMessage_not_pending st msg hnp
        simp only [stepOp]
        rw [hrw.1, hrw.2, List.append_nil]
        exact ⟨hb, hs⟩

theorem runOps_preserves (ops : List ClientOp) :
    ∀ (st : ClientState) (settled : List JsonId),
    PendingBound st → SettledOk st settled →
    PendingBound (runOps st ops).1 ∧
    SettledOk (runOps st ops).1 (settled ++ settlesOf (runOps st ops).2) := by
  induction ops with
  | nil =>
      intro st settled hb hs
      simp only [runOps, settlesOf, List.filterMap_nil, List.append_nil]
      exact ⟨hb, hs⟩
  | cons op rest ih =>
      intro st settled hb hs
      have h1 := stepOp_preserves st settled op hb hs
      have h2 := ih (stepOp st op).1 (settled ++ settlesOf (stepOp st op).2) h1.1 h1.2
      simp only [runOps]
      rw [settlesOf_append, ← List.append_assoc]
      exact h2

/-- Claim C5: an inbound envelope whose id sits in the pending-request
map settles exactly that call and removes its entry; the call is
rejected with the error message when the envelope carries an error and
resolved with the result field otherwise; and along any trace of sends
and receives from a client with an empty pending map, no two responses
settle the same outbound request id. -/
theorem claim_C5 :
    (∀ (st : ClientState) (msg : AcpMessage) (i : JsonId) (e : ErrorObj),
      msg.id = some i →
      (mapLookup st.pendingRequests i).isSome = true →
      msg.error = some e →
      handleMessage st msg =
        ({ st with pendingRequests := mapErase st.pendingRequests i },
         [ClientAction.settleReject i e.message])) ∧
    (∀ (st : ClientState) (msg : AcpMessage) (i : JsonId),
      msg.id = some i →
      (mapLookup st.pendingRequests i).isSome = true →
      msg.error = none →
      handleMessage st msg =
        ({ st with pendingRequests := mapErase st.pendingRequests i },
         [ClientAction.settleResolve i msg.result])) ∧
    (∀ (st : ClientState) (ops : List ClientOp),
      st.pendingRequests = [] →
      (settlesOf (runOps st ops).2).Nodup) := by
  refine ⟨?_, ?_, ?_⟩
  · intro st msg i e hid hp herr
    rw [handleMessage_pending st msg i hid hp, herr]
  · intro st msg i hid hp herr
    rw [handleMessage_pending st msg i hid hp, herr]
  · intro st ops hpend
    have hb : PendingBound st := by
      intro i hi
      rw [hpend] at hi
      simp [mapLookup] at hi
    have hs : SettledOk st [] := ⟨List.nodup_nil, by simp, by simp⟩
    have h := (runOps_preserves ops st [] hb hs).2.1
    simpa using h

def stC5 : ClientState :=
  { sessionId := some "s", eventSourceOpen := true, requestId := 1,
    pendingRequests := [(JsonId.num 1, ())], requestHandlers := [] }

def msgC5 : AcpMessage := { id := some (JsonId.num 1), result := some "done" }

/-- Witness for claim C5: a concrete response settling pending request 1,
and a concrete send-then-respond trace with pairwise distinct settled ids. -/
theorem claim_C5_witness :
    handleMessage stC5 msgC5 =
      ({ stC5 with pendingRequests := mapErase stC5.pendingRequests (JsonId.num 1) },
       [ClientAction.settleResolve (JsonId.num 1) msgC5.result]) ∧
    (settlesOf (runOps { sessionId := some "s" }
        [ClientOp.send "initialize" none,
         ClientOp.recv { id := some (JsonId.num 1), result := some "r" }]).2).Nodup := by
  constructor
  · exact claim_C5.2.1 stC5 msgC5 (JsonId.num 1) rfl (by decide) rfl
  · exact claim_C5.2.2 { sessionId := some "s" } _ rfl

/-- Claim C6 counterexample: an envelope with method "session/update"
and absent params is not classified; reading the update field of the
undefined params value raises a TypeError, so the parser is not total
on envelopes with missing params as the claim states. -/
theorem claim_C6_cex :
    parseSessionUpdate { method := some "session/update" } = Except.error () := by
  rfl

/-- Claim C6 as amended: parseSessionUpdate is a pure function that, on
every envelope whose method is neither "session/update" nor
"request_permission", and on every envelope of those two methods whose
params value is present, returns one of the six tags without throwing,
tolerating missing nested fields; an agent_message_chunk or
agent_thought_chunk with absent content text yields the empty string;
any envelope with params present not matching the five listed shapes is
classified unknown.  (Envelopes of those two methods with absent params
throw, per the counterexample.) -/
theorem claim_C6 :
    (∀ msg : AcpMessage,
      msg.method ≠ some "session/update" →
      msg.method ≠ some "request_permission" →
      parseSessionUpdate msg = Except.ok ParseResult.unknown) ∧
    (∀ (msg : AcpMessage) (p : SessionParams),
      msg.method = some "session/update" → msg.params = some p →
      ∃ r, parseSessionUpdate msg = Except.ok r) ∧
    (∀ (msg : AcpMessage) (p : SessionParams),
      msg.method = some "request_permission" → msg.params = some p →
      parseSessionUpdate msg =
        Except.ok (ParseResult.permissionRequest p.sessionId p)) ∧
    (∀ (msg : AcpMessage) (p : SessionParams) (u : SessionUpdate),
      msg.method = some "session/update" → msg.params = some p →
      p.update = some u → u.sessionUpdate = some "agent_message_chunk" →
      u.content.bind UpdateContent.text = none →
      parseSessionUpdate msg = Except.ok (ParseResult.text p.sessionId "")) ∧
    (∀ (msg : AcpMessage) (p : SessionParams) (u : SessionUpdate),
      msg.method = some "session/update" → msg.params = some p →
      p.update = some u → u.sessionUpdate = some "agent_thought_chunk" →
      u.content.bind UpdateContent.text = none →
      parseSessionUpdate msg = Except.ok (ParseResult.thought p.sessionId "")) ∧
    (∀ (msg : AcpMessage) (p : SessionParams),
      msg.method = some "session/update" → msg.params = some p →
      p.update.bind SessionUpdate.sessionUpdate ≠ some "agent_message_chunk" →
      p.update.bind SessionUpdate.sessionUpdate ≠ some "agent_thought_chunk" →
      p.update.bind SessionUpdate.sessionUpdate ≠ some "tool_call" →
      p.update.bind SessionUpdate.sessionUpdate ≠ some "tool_call_update" →
      parseSessionUpdate msg = Except.ok ParseResult.unknown) := by
  refine ⟨?_, ?_, ?_, ?_, ?_, ?_⟩
  · intro msg hm1 hm2
    unfold parseSessionUpdate
    rw [if_neg hm1, if_neg hm2]
  · intro msg p hm hp
    unfold parseSessionUpdate
    rw [hm, if_pos rfl, hp]
    dsimp only
    split <;> exact ⟨_, rfl⟩
  · intro msg p hm hp
    unfold parseSessionUpdate
    rw [hm, if_neg (by decide), if_pos rfl, hp]
  · intro msg p u hm hp hu hsu htext
    unfold parseSessionUpdate
    rw [hm, if_pos rfl, hp]
    dsimp only
    rw [hu]
    simp [Option.some_bind, hsu, htext]
  · intro msg p u hm hp hu hsu htext
    unfold parseSessionUpdate
    rw [hm, if_pos rfl, hp]
    dsimp only
    rw [hu]
    simp [Option.some_bind, hsu, htext]
  · intro msg p hm hp h1 h2 h3 h4
    unfold parseSessionUpdate
    rw [hm, if_pos rfl, hp]
    dsimp only
    split
    · rename_i h
      exact absurd h h1
    · rename_i h
      exact absurd h h2
    · rename_i h
      exact absurd h h3
    · rename_i h
      exact absurd h h4
    · rfl

def paramsC6perm : SessionParams := { sessionId := some "abc" }

def updC6chunk : SessionUpdate := { sessionUpdate := some "agent_message_chunk" }

def paramsC6chunk : SessionParams := { update := some updC6chunk }

def msgC6ping : AcpMessage := { method := some "session/ping" }

def msgC6perm : AcpMessage :=
  { method := some "request_permission", params := some paramsC6perm }

def msgC6chunk : AcpMessage :=
  { method := some "session/update", params := some paramsC6chunk }

/-- Witness for claim C6 at concrete envelopes: an unrelated method is
classified unknown, a permission request with params present parses,
and a message chunk with absent content text yields the empty string. -/
theorem claim_C6_witness :
    parseSessionUpdate msgC6ping = Except.ok ParseResult.unknown ∧
    parseSessionUpdate msgC6perm =
      Except.ok (ParseResult.permissionRequest (some "abc") paramsC6perm) ∧
    parseSessionUpdate msgC6chunk = Except.ok (ParseResult.text none "") := by
  refine ⟨?_, ?_, ?_⟩
  · exact claim_C6.1 msgC6ping (by decide) (by decide)
  · have h := claim_C6.2.2.1 msgC6perm paramsC6perm rfl rfl
    simpa [paramsC6perm] using h
  · exact claim_C6.2.2.2.1 msgC6chunk paramsC6chunk updC6chunk rfl rfl rfl rfl rfl

/-- Claim C8: with no established session, before connect completes and
again after disconnect, sendRequest and sendNotification fail with the
not-connected error; disconnect produces no settle action, it clears
the pending map without rejecting the abandoned calls. -/
theorem claim_C8 :
    (∀ (st : ClientState) (m : String) (p : Option SessionParams),
      st.sessionId = none →
      sendRequest st m p = Except.error "Not connected" ∧
      sendNotification st m p = Except.error "Not connected") ∧
    (∀ st : ClientState,
      (disconnect st).2 = [] ∧
      (disconnect st).1.sessionId = none ∧
      (disconnect st).1.pendingRequests = []) ∧
    (∀ (st : ClientState) (m : String) (p : Option SessionParams),
      sendRequest (disconnect st).1 m p = Except.error "Not connected" ∧
      sendNotification (disconnect st).1 m p = Except.error "Not connected") := by
  refine ⟨?_, ?_, ?_⟩
  · intro st m p hsid
    exact ⟨by simp [sendRequest, hsid], by simp [sendNotification, hsid]⟩
  · intro st
    exact ⟨rfl, rfl, rfl⟩
  · intro st m p
    exact ⟨by simp [sendRequest, disconnect], by simp [sendNotification, disconnect]⟩

/-- Witness for claim C8 at the freshly constructed client state. -/
theorem claim_C8_witness :
    sendRequest ({ } : ClientState) "initialize" none =
      Except.error "Not connected" ∧
    sendNotification ({ } : ClientState) "cancel" none =
      Except.error "Not connected" := by
  exact ⟨(claim_C8.1 ({ } : ClientState) "initialize" none rfl).1,
    (claim_C8.1 ({ } : ClientState) "cancel" none rfl).2⟩

/-! ## Working-copy provider (worktree.ts, GitWorktreeManager)

Each underlying git invocation (execSync) is modelled by a CmdResult
drawn from an environment record: ok with the captured stdout, or err
for a non-zero exit, a spawn failure, or output beyond the configured
maxBuffer.  Filesystem checks (fs.existsSync) are environment booleans;
the directory and ignore-file writes in ensureWorktreesDir are not
observed by any claim and are modelled as succeeding. -/

inductive CmdResult
  | ok (out : String)
  | err
deriving DecidableEq

structure WorktreeInfo where
  path : String
  branch : String
  commit : String
deriving DecidableEq

/-- worktree.ts getCurrentBranch, lines 149-158: trimmed stdout of
git rev-parse, falling back to the literal "main" on failure. -/
def getCurrentBranch (r : CmdResult) : String :=
  match r with
  | CmdResult.ok out => out.trim
  | CmdResult.err => "main"

/-- worktree.ts getCommitHash, lines 160-169. -/
def getCommitHash (r : CmdResult) : String :=
  match r with
  | CmdResult.ok out => out.trim
  | CmdResult.err => "unknown"

/-- worktree.ts getDiff, lines 171-181: git diff HEAD with a 10 MiB
buffer bound; any failure, including an oversized diff, is caught and
yields the empty string. -/
def getDiff (r : CmdResult) : String :=
  match r with
  | CmdResult.ok out => out
  | CmdResult.err => ""

/-- worktree.ts getStatus, lines 183-192. -/
def getStatus (r : CmdResult) : String :=
  match r with
  | CmdResult.ok out => out
  | CmdResult.err => ""

/-- worktree.ts commitChanges, lines 194-205: git add -A then
git commit; any failure of either is caught and yields false. -/
def commitChanges (addRes commitRes : CmdResult) : Bool :=
  match addRes with
  | CmdResult.err => false
  | CmdResult.ok _ =>
      match commitRes with
      | CmdResult.err => false
      | CmdResult.ok _ => true

/-- JavaScript String.replace with a plain string pattern replaces only
the first occurrence. -/
def jsReplaceOnce (s pat repl : String) : String :=
  match s.splitOn pat with
  | [] => s
  | [x] => x
  | x :: y :: rest => x ++ repl ++ String.intercalate pat (y :: rest)

def parseWorktreeLine (acc : WorktreeInfo) (line : String) : WorktreeInfo :=
  if line.startsWith "worktree " then { acc with path := line.drop 9 }
  else if line.startsWith "branch " then
    { acc with branch := jsReplaceOnce (line.drop 7) "refs/heads/" "" }
  else if line.startsWith "HEAD " then { acc with commit := line.drop 5 }
  else acc

def parseWorktreeEntry (entry : String) : WorktreeInfo :=
  (entry.splitOn "\n").foldl parseWorktreeLine
    { path := "", branch := "", commit := "" }

/-- worktree.ts listWorktrees, lines 111-147: parse the porcelain
output, keeping only worktrees under the managed directory; any
failure of the underlying invocation yields the empty list. -/
def listWorktrees (worktreesDir : String) (r : CmdResult) : List WorktreeInfo :=
  match r with
  | CmdResult.err => []
  | CmdResult.ok out =>
      (((out.splitOn "\n\n").filter (fun s => s != "")).map parseWorktreeEntry).filter
        (fun w => w.path.startsWith worktreesDir)

/-- worktree.ts removeWorktree, lines 89-109: git worktree remove runs
outside any try block when the path exists, so its failure propagates;
the subsequent git branch -D is wrapped and its failure ignored. -/
def removeWorktree (pathExists : Bool) (removeRes branchDelRes : CmdResult) :
    Except String Unit :=
  if pathExists then
    match removeRes with
    | CmdResult.err => Except.error "git worktree remove failed"
    | CmdResult.ok _ =>
        match branchDelRes with
        | _ => Except.ok ()
  else
    match branchDelRes with
    | _ => Except.ok ()

structure CreateWorktreeEnv where
  pathExists : Bool
  removeRes : CmdResult
  branchDelRes : CmdResult
  currentBranchRes : CmdResult
  branchCreateRes : CmdResult
  worktreeAddRes : CmdResult
  commitHashRes : CmdResult
deriving DecidableEq

/-- JavaScript a || b on a string-or-undefined left operand. -/
def jsOrStr (a : Option String) (b : String) : String :=
  match a with
  | some s => if s != "" then s else b
  | none => b

/-- worktree.ts createWorktree, lines 49-87: remove an existing copy
(its failure propagates), pick the base branch, attempt branch creation
(failure ignored), then git worktree add, which runs outside any try
block so its failure propagates; finally read the commit hash with an
"unknown" fallback. -/
def createWorktree (repoPath name : String) (baseBranch : Option String)
    (env : CreateWorktreeEnv) : Except String WorktreeInfo :=
  let branchName := "goose/" ++ name
  let worktreePath := repoPath ++ "/.goose-worktrees/" ++ name
  match (if env.pathExists then
           removeWorktree env.pathExists env.removeRes env.branchDelRes
         else Except.ok ()) with
  | Except.error e => Except.error e
  | Except.ok _ =>
      let _base := jsOrStr baseBranch (getCurrentBranch env.currentBranchRes)
      match env.branchCreateRes with
      | _ =>
          match env.worktreeAddRes with
          | CmdResult.err => Except.error "git worktree add failed"
          | CmdResult.ok _ =>
              Except.ok { path := worktreePath, branch := branchName,
                          commit := getCommitHash env.commitHashRes }

def envC4 : CreateWorktreeEnv :=
  { pathExists := false, removeRes := CmdResult.ok "", branchDelRes := CmdResult.ok "",
    currentBranchRes := CmdResult.ok "main", branchCreateRes := CmdResult.ok "",
    worktreeAddRes := CmdResult.err, commitHashRes := CmdResult.ok "abc" }

/-- Claim C4 counterexample: create does not absorb a failing VCS
invocation; a failing git worktree add propagates an exception to the
caller instead of returning a falsy or empty result. -/
theorem claim_C4_cex :
    createWorktree "/repo" "fix-x" none envC4 =
      Except.error "git worktree add failed" := by
  rfl

/-- Claim C4 as amended: the text queries diff and status return the
empty string on a failing VCS invocation, commit returns false, list
returns the empty list, and none of these four throws; but create and
remove are not total: a failing git worktree add inside create, and a
failing git worktree remove inside remove when the path exists,
propagate the error to the caller (the coordinator catches and logs
it). -/
theorem claim_C4 :
    getDiff CmdResult.err = "" ∧
    getStatus CmdResult.err = "" ∧
    (∀ r : CmdResult, commitChanges CmdResult.err r = false) ∧
    (∀ out : String, commitChanges (CmdResult.ok out) CmdResult.err = false) ∧
    (∀ dir : String, listWorktrees dir CmdResult.err = []) ∧
    (∀ (repoPath name : String) (baseBranch : Option String)
        (env : CreateWorktreeEnv),
      env.worktreeAddRes = CmdResult.err →
      ∃ e, createWorktree repoPath name baseBranch env = Except.error e) ∧
    (∀ branchDelRes : CmdResult,
      removeWorktree true CmdResult.err branchDelRes =
        Except.error "git worktree remove failed") := by
  refine ⟨rfl, rfl, fun r => rfl, fun out => rfl, fun dir => rfl, ?_, fun b => rfl⟩
  intro repoPath name baseBranch env hadd
  unfold createWorktree
  cases hpe : env.pathExists with
  | false =>
      rw [if_neg (by simp [hpe])]
      dsimp only
      rw [hadd]
      cases env.branchCreateRes <;> exact ⟨_, rfl⟩
  | true =>
      rw [if_pos (by simp [hpe])]
      unfold removeWorktree
      rw [if_pos (by simp [hpe])]
      cases hrm : env.removeRes with
      | err => exact ⟨_, rfl⟩
      | ok o =>
          dsimp only
          rw [hadd]
          cases env.branchDelRes <;> cases env.branchCreateRes <;> exact ⟨_, rfl⟩

/-- Witness for claim C4: concrete failing create and remove calls. -/
theorem claim_C4_witness :
    (∃ e, createWorktree "/repo" "n" none
        { envC4 with pathExists := true } = Except.error e) ∧
    removeWorktree true CmdResult.err (CmdResult.ok "") =
      Except.error "git worktree remove failed" := by
  exact ⟨claim_C4.2.2.2.2.2.1 "/repo" "n" none
    { envC4 with pathExists := true } rfl,
    claim_C4.2.2.2.2.2.2 (CmdResult.ok "")⟩

/-! ## Workstream coordinator (workstream-manager.ts, WorkstreamManager)

The coordinator state holds the workstream table and the per-workstream
maps.  Clients are owned 1-to-1; here the clients map records presence
(the transport state itself is modelled above).  Wall-clock reads
(new Date()) are a Nat parameter, uuid draws a fresh-string parameter.
Observer emissions are returned as an ordered event list.  The inner
activeTools maps are keyed by Option String because the parsed tool id
may be the JavaScript value undefined, which is a valid Map key. -/

inductive WStatus
  | starting
  | running
  | waiting
  | reviewing
  | paused
  | completed
  | error
deriving DecidableEq

inductive Role
  | user
  | assistant
  | system
deriving DecidableEq

structure WorkstreamMessage where
  role : Role
  content : String
  timestamp : Nat
deriving DecidableEq

inductive NotifKind
  | action_required
  | review_ready
  | error
  | info
deriving DecidableEq

structure Notification where
  id : String
  type : NotifKind
  title : String
  message : String
  timestamp : Nat
  read : Bool
  workstreamId : String
deriving DecidableEq

structure ToolCallInfo where
  id : Option String
  title : Option String
  status : Option String
deriving DecidableEq

structure Workstream where
  id : String
  name : String
  task : String
  status : WStatus
  worktreePath : Option String
  branchName : Option String
  acpSessionId : Option String
  createdAt : Nat
  lastActivity : Nat
  currentActivity : String
  notifications : List Notification
  messageHistory : List WorkstreamMessage
deriving DecidableEq

structure PendingPermissionRequest where
  requestId : Option JsonId
  params : SessionParams
  workstreamId : String
deriving DecidableEq

inductive WEvent
  | statusChange (status : WStatus) (activity : Option String)
  | message (m : WorkstreamMessage)
  | toolCall (tool : ToolCallInfo)
  | toolUpdate (toolId : Option String) (status : Option String)
  | notification (n : Notification)
  | permissionRequest (requestId : Option JsonId) (data : SessionParams)
  | error (e : String)
deriving DecidableEq

structure ManagerState where
  workstreams : List (String × Workstream) := []
  clients : List (String × ClientState) := []
  acpSessionIds : List (String × String) := []
  activeTools : List (String × List (Option String × ToolCallInfo)) := []
  pendingPermissions : List (String × PendingPermissionRequest) := []
  permissionResolvers : List (String × Unit) := []
  hasWorktreeManager : Bool := false
deriving DecidableEq

/-- workstream-manager.ts updateWorkstream, lines 70-75: Object.assign
the updates onto the record when present, always refreshing
lastActivity; a missing id is a silent no-op. -/
def updateWorkstream (now : Nat) (st : ManagerState) (id : String)
    (updates : Workstream → Workstream) : ManagerState :=
  match mapLookup st.workstreams id with
  | none => st
  | some ws =>
      { st with workstreams :=
          mapInsert st.workstreams id { updates ws with lastActivity := now } }

/-- workstream-manager.ts addNotification, lines 453-475: push the
record onto the workstream when present (without touching
lastActivity) and emit a notification event unconditionally. -/
def addNotification (now : Nat) (freshId : String) (st : ManagerState)
    (wid : String) (kind : NotifKind) (title msg : String) :
    ManagerState × List (String × WEvent) :=
  let n : Notification :=
    { id := freshId, type := kind, title := title, message := msg,
      timestamp := now, read := false, workstreamId := wid }
  let st1 :=
    match mapLookup st.workstreams wid with
    | some ws =>
        let ws1 := { ws with notifications := ws.notifications ++ [n] }
        { st with workstreams := mapInsert st.workstreams wid ws1 }
    | none => st
  (st1, [(wid, WEvent.notification n)])

/-- JavaScript template interpolation of a string-or-undefined value. -/
def jsStr (o : Option String) : String :=
  match o with
  | some s => s
  | none => "undefined"

/-- workstream-manager.ts handleAcpMessage, text case, lines 222-241:
a falsy (empty) chunk is skipped entirely; otherwise append to a
trailing assistant message, or push a fresh assistant message and emit
a message event, then set the activity to the first 100 characters. -/
def textChunkStep (now : Nat) (st : ManagerState) (wid : String)
    (ws : Workstream) (text : String) : ManagerState × List (String × WEvent) :=
  if text = "" then (st, [])
  else
    match ws.messageHistory.getLast? with
    | some lastMsg =>
        if lastMsg.role = Role.assistant then
          let ws1 := { ws with messageHistory :=
            ws.messageHistory.dropLast ++
              [{ lastMsg with content := lastMsg.content ++ text }] }
          let st1 := { st with workstreams := mapInsert st.workstreams wid ws1 }
          (updateWorkstream now st1 wid
            (fun w => { w with currentActivity := text.take 100 }), [])
        else
          let newMsg : WorkstreamMessage :=
            { role := Role.assistant, content := text, timestamp := now }
          let ws1 := { ws with messageHistory := ws.messageHistory ++ [newMsg] }
          let st1 := { st with workstreams := mapInsert st.workstreams wid ws1 }
          (updateWorkstream now st1 wid
            (fun w => { w with currentActivity := text.take 100 }),
           [(wid, WEvent.message newMsg)])
    | none =>
        let newMsg : WorkstreamMessage :=
          { role := Role.assistant, content := text, timestamp := now }
        let ws1 := { ws with messageHistory := ws.messageHistory ++ [newMsg] }
        let st1 := { st with workstreams := mapInsert st.workstreams wid ws1 }
        (updateWorkstream now st1 wid
          (fun w => { w with currentActivity := text.take 100 }),
         [(wid, WEvent.message newMsg)])

/-- workstream-manager.ts handleAcpMessage switch, lines 216-304,
applied to an already parsed classification. -/
def handleParsed (now : Nat) (freshId : String) (st : ManagerState)
    (wid : String) (msgId : Option JsonId) (parsed : ParseResult) :
    ManagerState × List (String × WEvent) :=
  match mapLookup st.workstreams wid with
  | none => (st, [])
  | some ws =>
      match parsed with
      | ParseResult.text _ text => textChunkStep now st wid ws text
      | ParseResult.thought _ thought =>
          if thought = "" then (st, [])
          else
            (updateWorkstream now st wid (fun w =>
              { w with currentActivity := "💭 " ++ thought.take 100 }), [])
      | ParseResult.toolCall _ id title status =>
          let toolInfo : ToolCallInfo := { id := id, title := title, status := status }
          let st1 :=
            match mapLookup st.activeTools wid with
            | some tools =>
                { st with activeTools :=
                    mapInsert st.activeTools wid (mapInsert tools id toolInfo) }
            | none => st
          let st2 := updateWorkstream now st1 wid (fun w =>
            { w with currentActivity := "🔧 " ++ jsStr title })
          (st2, [(wid, WEvent.toolCall toolInfo)])
      | ParseResult.toolUpdate _ id status _content =>
          let st1 :=
            match mapLookup st.activeTools wid, id with
            | some tools, some idStr =>
                if idStr = "" then st
                else
                  match mapLookup tools (some idStr) with
                  | some tool =>
                      let tools1 :=
                        if status = some "completed" ∨ status = some "failed" then
                          mapErase tools (some idStr)
                        else
                          mapInsert tools (some idStr) { tool with status := status }
                      { st with activeTools := mapInsert st.activeTools wid tools1 }
                  | none => st
            | _, _ => st
          (st1, [(wid, WEvent.toolUpdate id status)])
      | ParseResult.permissionRequest _ data =>
          let st1 := updateWorkstream now st wid (fun w =>
            { w with status := WStatus.waiting,
                     currentActivity := "Waiting for permission..." })
          let r := addNotification now freshId st1 wid NotifKind.action_required
            "Permission Required" "The agent needs your approval to continue"
          (r.1, r.2 ++ [(wid, WEvent.permissionRequest msgId data)])
      | ParseResult.unknown => (st, [])

/-- workstream-manager.ts handleAcpMessage, lines 216-304: parse first
(a parse TypeError propagates), then dispatch on the classification;
an unknown workstream id is a silent no-op. -/
def handleAcpMessage (now : Nat) (freshId : String) (st : ManagerState)
    (wid : String) (message : AcpMessage) :
    Except Unit (ManagerState × List (String × WEvent)) :=
  match parseSessionUpdate message with
  | Except.error e => Except.error e
  | Except.ok parsed => Except.ok (handleParsed now freshId st wid message.id parsed)

def runMsgs (now : Nat) (freshId : String) (wid : String) (st : ManagerState) :
    List AcpMessage → Except Unit (ManagerState × List (String × WEvent))
  | [] => Except.ok (st, [])
  | m :: ms =>
      match handleAcpMessage now freshId st wid m with
      | Except.error e => Except.error e
      | Except.ok r =>
          match runMsgs now freshId wid r.1 ms with
          | Except.error e => Except.error e
          | Except.ok r2 => Except.ok (r2.1, r.2 ++ r2.2)

structure SelectedOption where
  optionId : String
deriving DecidableEq

structure PermissionOutcome where
  selected : SelectedOption
deriving DecidableEq

structure PermissionResponse where
  outcome : PermissionOutcome
deriving DecidableEq

/-- workstream-manager.ts respondToPermission, lines 370-395: a missing
resolver throws; otherwise the stored resolver is invoked with exactly
the payload outcome.selected.optionId (returned here as a resolution
effect), both the pending record and the resolver are removed, and the
workstream is set to running. -/
def respondToPermission (now : Nat) (st : ManagerState)
    (wid optionId : String) :
    Except String (ManagerState × List (String × PermissionResponse)) :=
  match mapLookup st.permissionResolvers wid with
  | none => Except.error "No pending permission request for this workstream"
  | some _ =>
      let payload : PermissionResponse :=
        { outcome := { selected := { optionId := optionId } } }
      let st1 := { st with
        permissionResolvers := mapErase st.permissionResolvers wid,
        pendingPermissions := mapErase st.pendingPermissions wid }
      let st2 := updateWorkstream now st1 wid (fun w =>
        { w with status := WStatus.running, currentActivity := "Continuing..." })
      Except.ok (st2, [(wid, payload)])

/-- workstream-manager.ts pauseWorkstream, lines 402-408. -/
def pauseWorkstream (now : Nat) (st : ManagerState) (wid : String) :
    ManagerState × List (String × WEvent) :=
  (updateWorkstream now st wid (fun w =>
    { w with status := WStatus.paused, currentActivity := "Paused by user" }),
   [(wid, WEvent.statusChange WStatus.paused none)])

/-- workstream-manager.ts resumeWorkstream, lines 410-416. -/
def resumeWorkstream (now : Nat) (st : ManagerState) (wid : String) :
    ManagerState × List (String × WEvent) :=
  (updateWorkstream now st wid (fun w =>
    { w with status := WStatus.running, currentActivity := "Resumed" }),
   [(wid, WEvent.statusChange WStatus.running none)])

/-- Externally visible side effects of stopWorkstream. -/
inductive StopEffect
  | disconnected (wid : String)
  | removeWorktreeCalled (name : String)
deriving DecidableEq

/-- workstream-manager.ts stopWorkstream, lines 418-438: disconnect and
drop the client when present, best-effort worktree removal when asked
and applicable, then unconditionally delete the workstream, session
and tool entries. -/
def stopWorkstream (st : ManagerState) (wid : String) (cleanup : Bool) :
    ManagerState × List StopEffect :=
  let clientEntry := mapLookup st.clients wid
  let wsEntry := mapLookup st.workstreams wid
  let st1 :=
    match clientEntry with
    | some _ => { st with clients := mapErase st.clients wid }
    | none => st
  let eff1 : List StopEffect :=
    match clientEntry with
    | some _ => [StopEffect.disconnected wid]
    | none => []
  let eff2 : List StopEffect :=
    match wsEntry with
    | some ws =>
        if cleanup && jsTruthyStr ws.worktreePath && st.hasWorktreeManager then
          [StopEffect.removeWorktreeCalled ws.name]
        else []
    | none => []
  ({ st1 with
      workstreams := mapErase st1.workstreams wid,
      acpSessionIds := mapErase st1.acpSessionIds wid,
      activeTools := mapErase st1.activeTools wid },
   eff1 ++ eff2)

theorem updateWorkstream_permissionResolvers (now : Nat) (st : ManagerState)
    (id : String) (f : Workstream → Workstream) :
    (updateWorkstream now st id f).permissionResolvers = st.permissionResolvers := by
  unfold updateWorkstream
  cases mapLookup st.workstreams id <;> rfl

theorem updateWorkstream_pendingPermissions (now : Nat) (st : ManagerState)
    (id : String) (f : Workstream → Workstream) :
    (updateWorkstream now st id f).pendingPermissions = st.pendingPermissions := by
  unfold updateWorkstream
  cases mapLookup st.workstreams id <;> rfl

theorem updateWorkstream_activeTools (now : Nat) (st : ManagerState)
    (id : String) (f : Workstream → Workstream) :
    (updateWorkstream now st id f).activeTools = st.activeTools := by
  unfold updateWorkstream
  cases mapLookup st.workstreams id <;> rfl

theorem updateWorkstream_lookup_self (now : Nat) (st : ManagerState)
    (id : String) (f : Workstream → Workstream) (w : Workstream)
    (h : mapLookup (updateWorkstream now st id f).workstreams id = some w) :
    ∃ ws, mapLookup st.workstreams id = some ws ∧
      w = { f ws with lastActivity := now } := by
  unfold updateWorkstream at h
  cases hl : mapLookup st.workstreams id with
  | none =>
      rw [hl] at h
      dsimp only at h
      rw [hl] at h
      exact absurd h (by simp)
  | some ws =>
      rw [hl] at h
      dsimp only at h
      rw [mapLookup_insert_self] at h
      injection h with h2
      exact ⟨ws, rfl, h2.symm⟩

/-- Claim C3: respondToPermission fails with the no-pending-permission
error exactly when no resolver exists for the workstream id; when a
resolver exists it is resolved with exactly the payload
outcome.selected.optionId carrying the given option id, the pending
record and the resolver for that workstream are both removed (so P1 is
preserved with both counts zero), and any surviving workstream entry
for that id has status running. -/
theorem claim_C3 :
    (∀ (now : Nat) (st : ManagerState) (wid optionId : String),
      respondToPermission now st wid optionId =
        Except.error "No pending permission request for this workstream" ↔
      mapLookup st.permissionResolvers wid = none) ∧
    (∀ (now : Nat) (st : ManagerState) (wid optionId : String),
      mapLookup st.permissionResolvers wid = some () →
      ∃ st2,
        respondToPermission now st wid optionId = Except.ok
          (st2, [(wid, { outcome := { selected := { optionId := optionId } } })]) ∧
        mapLookup st2.permissionResolvers wid = none ∧
        mapLookup st2.pendingPermissions wid = none ∧
        (∀ w, mapLookup st2.workstreams wid = some w →
          w.status = WStatus.running)) := by
  constructor
  · intro now st wid optionId
    unfold respondToPermission
    cases hl : mapLookup st.permissionResolvers wid with
    | none => simp
    | some u => simp
  · intro now st wid optionId hl
    unfold respondToPermission
    rw [hl]
    refine ⟨_, rfl, ?_, ?_, ?_⟩
    · rw [updateWorkstream_permissionResolvers]
      exact mapLookup_erase_self _ _
    · rw [updateWorkstream_pendingPermissions]
      exact mapLookup_erase_self _ _
    · intro w hw
      obtain ⟨ws, _, rfl⟩ := updateWorkstream_lookup_self _ _ _ _ _ hw
      rfl

def wsC3 : Workstream :=
  { id := "w", name := "w", task := "t", status := WStatus.waiting,
    worktreePath := none, branchName := none, acpSessionId := some "s",
    createdAt := 0, lastActivity := 0, currentActivity := "Waiting",
    notifications := [], messageHistory := [] }

def ppC3 : PendingPermissionRequest :=
  { requestId := some (JsonId.num 42), params := { sessionId := some "s" },
    workstreamId := "w" }

def stC3 : ManagerState :=
  { workstreams := [("w", wsC3)],
    pendingPermissions := [("w", ppC3)],
    permissionResolvers := [("w", ())] }

/-- Witness for claim C3: a concrete workstream blocked on a pending
permission is resolved with option id a and returns to running. -/
theorem claim_C3_witness :
    (respondToPermission 7 stC3 "w" "a" =
        Except.error "No pending permission request for this workstream" ↔
      mapLookup stC3.permissionResolvers "w" = none) ∧
    ∃ st2,
      respondToPermission 7 stC3 "w" "a" = Except.ok
        (st2, [("w", { outcome := { selected := { optionId := "a" } } })]) ∧
      mapLookup st2.permissionResolvers "w" = none ∧
      mapLookup st2.pendingPermissions "w" = none ∧
      (∀ w, mapLookup st2.workstreams "w" = some w →
        w.status = WStatus.running) := by
  exact ⟨claim_C3.1 7 stC3 "w" "a", claim_C3.2 7 stC3 "w" "a" (by decide)⟩

theorem stopWorkstream_state (st : ManagerState) (wid : String) (c : Bool) :
    (stopWorkstream st wid c).1 =
      { st with
        clients := (match mapLookup st.clients wid with
                    | some _ => mapErase st.clients wid
                    | none => st.clients),
        workstreams := mapErase st.workstreams wid,
        acpSessionIds := mapErase st.acpSessionIds wid,
        activeTools := mapErase st.activeTools wid } := by
  unfold stopWorkstream
  cases mapLookup st.clients wid <;> rfl

/-- Claim C9: stopWorkstream is idempotent; a second call for the same
id returns without error, produces no further effect (no disconnect,
no worktree removal), and leaves the coordinator state exactly as the
first call left it. -/
theorem claim_C9 :
    ∀ (st : ManagerState) (wid : String) (c1 c2 : Bool),
      stopWorkstream (stopWorkstream st wid c1).1 wid c2 =
        ((stopWorkstream st wid c1).1, []) := by
  intro st wid c1 c2
  rw [stopWorkstream_state st wid c1]
  unfold stopWorkstream
  cases hc : mapLookup st.clients wid <;>
    simp [hc, mapLookup_erase_self, mapErase_erase_self]

/-- Claim C10: for an id absent from the workstream table, pause and
resume both leave the entire coordinator state unchanged (no entry is
created or modified) and still emit a status_change observer event for
that id. -/
theorem claim_C10 :
    ∀ (now : Nat) (st : ManagerState) (wid : String),
      mapLookup st.workstreams wid = none →
      pauseWorkstream now st wid =
        (st, [(wid, WEvent.statusChange WStatus.paused none)]) ∧
      resumeWorkstream now st wid =
        (st, [(wid, WEvent.statusChange WStatus.running none)]) := by
  intro now st wid h
  unfold pauseWorkstream resumeWorkstream updateWorkstream
  rw [h]
  exact ⟨rfl, rfl⟩

/-- Witness for claim C10 at the empty coordinator state. -/
theorem claim_C10_witness :
    pauseWorkstream 3 ({ } : ManagerState) "ghost" =
      (({ } : ManagerState),
       [("ghost", WEvent.statusChange WStatus.paused none)]) ∧
    resumeWorkstream 3 ({ } : ManagerState) "ghost" =
      (({ } : ManagerState),
       [("ghost", WEvent.statusChange WStatus.running none)]) := by
  exact claim_C10 3 ({ } : ManagerState) "ghost" rfl

/-! ## Agent message chunks and invariant M1 (claim C2) -/

/-- An agent_message_chunk notification envelope as the remote sends
it on the stream. -/
def chunkMsg (text : Option String) : AcpMessage :=
  let content : UpdateContent := { type := some "text", text := text }
  let upd : SessionUpdate :=
    { sessionUpdate := some "agent_message_chunk", content := some content }
  let ps : SessionParams := { sessionId := some "sess", update := some upd }
  { method := some "session/update", params := some ps }

theorem parse_chunkMsg (text : Option String) :
    parseSessionUpdate (chunkMsg text) =
      Except.ok (ParseResult.text (some "sess") (text.getD "")) := by
  cases text <;> rfl

theorem handleAcp_chunkMsg (now : Nat) (fid : String) (st : ManagerState)
    (wid : String) (t : Option String) :
    handleAcpMessage now fid st wid (chunkMsg t) =
      Except.ok (handleParsed now fid st wid none
        (ParseResult.text (some "sess") (t.getD ""))) := by
  unfold handleAcpMessage
  rw [parse_chunkMsg]
  rfl

/-- Two adjacent roles are allowed unless both are assistant roles. -/
def RoleOk (r1 r2 : Role) : Prop :=
  ¬(r1 = Role.assistant ∧ r2 = Role.assistant)

instance : DecidableRel RoleOk := fun r1 r2 => by
  unfold RoleOk
  infer_instance

/-- Invariant M1: no two adjacent agent messages in a history. -/
def NoAdj (h : List WorkstreamMessage) : Prop :=
  List.Chain' RoleOk (h.map WorkstreamMessage.role)

instance (h : List WorkstreamMessage) : Decidable (NoAdj h) := by
  unfold NoAdj
  infer_instance

/-- Invariant M1 over every workstream of the table. -/
def HistInv (st : ManagerState) : Prop :=
  ∀ wid ws, mapLookup st.workstreams wid = some ws → NoAdj ws.messageHistory

theorem getLast?_map_role (l : List WorkstreamMessage) :
    (l.map WorkstreamMessage.role).getLast? =
      l.getLast?.map WorkstreamMessage.role := by
  induction l with
  | nil => rfl
  | cons a rest ih =>
      cases rest with
      | nil => rfl
      | cons b r2 => simpa [List.getLast?_cons_cons] using ih

theorem noAdj_append_last (h : List WorkstreamMessage)
    (lm : WorkstreamMessage) (c : String)
    (hgl : h.getLast? = some lm) (hna : NoAdj h) :
    NoAdj (h.dropLast ++ [{ lm with content := c }]) := by
  have hroles : (h.dropLast ++ [{ lm with content := c }]).map
      WorkstreamMessage.role = h.map WorkstreamMessage.role := by
    conv_rhs => rw [← List.dropLast_append_getLast? lm hgl]
    simp
  unfold NoAdj
  rw [hroles]
  exact hna

theorem noAdj_snoc (h : List WorkstreamMessage) (m : WorkstreamMessage)
    (hna : NoAdj h)
    (hlast : ∀ lm, h.getLast? = some lm → lm.role ≠ Role.assistant) :
    NoAdj (h ++ [m]) := by
  unfold NoAdj at hna ⊢
  rw [List.map_append, List.chain'_append]
  refine ⟨hna, List.chain'_singleton _, ?_⟩
  intro x hx y hy
  rw [getLast?_map_role] at hx
  cases ho : h.getLast? with
  | none => rw [ho] at hx; simp at hx
  | some lm =>
      rw [ho] at hx
      have hx2 : lm.role = x := by simpa using hx
      have hy2 : m.role = y := by simpa using hy
      subst hx2
      subst hy2
      intro hcon
      exact hlast lm ho hcon.1

theorem updateWorkstream_lookup_ne (now : Nat) (st : ManagerState)
    (id wid' : String) (f : Workstream → Workstream) (hne : wid' ≠ id) :
    mapLookup (updateWorkstream now st id f).workstreams wid' =
      mapLookup st.workstreams wid' := by
  unfold updateWorkstream
  cases mapLookup st.workstreams id with
  | none => rfl
  | some ws => exact mapLookup_insert_of_ne _ _ _ _ hne

theorem lookup_update_insert (now : Nat) (st : ManagerState) (wid : String)
    (ws1 : Workstream) (f : Workstream → Workstream) :
    mapLookup (updateWorkstream now
        { st with workstreams := mapInsert st.workstreams wid ws1 }
        wid f).workstreams wid = some { f ws1 with lastActivity := now } := by
  unfold updateWorkstream
  dsimp only
  rw [mapLookup_insert_self]
  dsimp only
  exact mapLookup_insert_self _ _ _

theorem histInv_insert_update (now : Nat) (st : ManagerState) (wid : String)
    (ws1 : Workstream) (f : Workstream → Workstream)
    (hf : ∀ w, (f w).messageHistory = w.messageHistory)
    (hinv : HistInv st) (hna : NoAdj ws1.messageHistory) :
    HistInv (updateWorkstream now
      { st with workstreams := mapInsert st.workstreams wid ws1 } wid f) := by
  intro wid' ws' hws'
  by_cases hw : wid' = wid
  · subst hw
    rw [lookup_update_insert] at hws'
    injection hws' with h2
    subst h2
    show NoAdj ({ f ws1 with lastActivity := now }).messageHistory
    have hh : ({ f ws1 with lastActivity := now }).messageHistory =
        ws1.messageHistory := hf ws1
    rw [hh]
    exact hna
  · rw [updateWorkstream_lookup_ne _ _ _ _ _ hw] at hws'
    dsimp only at hws'
    rw [mapLookup_insert_of_ne _ _ _ _ hw] at hws'
    exact hinv wid' ws' hws'

theorem handleParsed_text_histInv (now : Nat) (fid : String)
    (st : ManagerState) (wid : String) (mid : Option JsonId)
    (s : Option String) (text : String) (hinv : HistInv st) :
    HistInv (handleParsed now fid st wid mid (ParseResult.text s text)).1 := by
  unfold handleParsed
  cases hws : mapLookup st.workstreams wid with
  | none => exact hinv
  | some ws =>
      dsimp only
      unfold textChunkStep
      by_cases ht : text = ""
      · rw [if_pos ht]
        exact hinv
      · rw [if_neg ht]
        cases hgl : ws.messageHistory.getLast? with
        | some lm =>
            dsimp only
            by_cases hrole : lm.role = Role.assistant
            · rw [if_pos hrole]
              exact histInv_insert_update now st wid _ _ (fun w => rfl) hinv
                (noAdj_append_last _ _ _ hgl (hinv wid ws hws))
            · rw [if_neg hrole]
              refine histInv_insert_update now st wid _ _ (fun w => rfl) hinv
                (noAdj_snoc _ _ (hinv wid ws hws) ?_)
              intro lm2 hlm2
              rw [hgl] at hlm2
              injection hlm2 with h2
              exact h2 ▸ hrole
        | none =>
            dsimp only
            refine histInv_insert_update now st wid _ _ (fun w => rfl) hinv
              (noAdj_snoc _ _ (hinv wid ws hws) ?_)
            intro lm2 hlm2
            rw [hgl] at hlm2
            cases hlm2

theorem runChunks_histInv (now : Nat) (fid wid : String)
    (texts : List (Option String)) :
    ∀ st : ManagerState, HistInv st →
    ∃ st2 evs, runMsgs now fid wid st (texts.map chunkMsg) =
      Except.ok (st2, evs) ∧ HistInv st2 := by
  induction texts with
  | nil =>
      intro st h
      exact ⟨st, [], rfl, h⟩
  | cons t rest ih =>
      intro st h
      obtain ⟨st2, evs2, hrun, hinv2⟩ :=
        ih (handleParsed now fid st wid none
          (ParseResult.text (some "sess") (t.getD ""))).1
          (handleParsed_text_histInv now fid st wid none (some "sess")
            (t.getD "") h)
      refine ⟨st2, (handleParsed now fid st wid none
        (ParseResult.text (some "sess") (t.getD ""))).2 ++ evs2, ?_, hinv2⟩
      show runMsgs now fid wid st (chunkMsg t :: rest.map chunkMsg) = _
      unfold runMsgs
      rw [handleAcp_chunkMsg]
      dsimp only
      rw [hrun]

theorem chunk_append_mech (now : Nat) (fid : String) (st : ManagerState)
    (wid : String) (ws : Workstream) (text : String) (lm : WorkstreamMessage)
    (hws : mapLookup st.workstreams wid = some ws)
    (ht : text ≠ "")
    (hgl : ws.messageHistory.getLast? = some lm)
    (hrole : lm.role = Role.assistant) :
    ∃ st2, handleAcpMessage now fid st wid (chunkMsg (some text)) =
        Except.ok (st2, []) ∧
      (mapLookup st2.workstreams wid).map Workstream.messageHistory =
        some (ws.messageHistory.dropLast ++
          [{ lm with content := lm.content ++ text }]) := by
  rw [handleAcp_chunkMsg]
  unfold handleParsed
  rw [hws]
  dsimp only
  unfold textChunkStep
  rw [Option.getD_some, if_neg ht, hgl]
  dsimp only
  rw [if_pos hrole]
  refine ⟨_, rfl, ?_⟩
  rw [lookup_update_insert]
  rfl

theorem chunk_new_mech (now : Nat) (fid : String) (st : ManagerState)
    (wid : String) (ws : Workstream) (text : String)
    (hws : mapLookup st.workstreams wid = some ws)
    (ht : text ≠ "")
    (hlast : ∀ lm, ws.messageHistory.getLast? = some lm →
      lm.role ≠ Role.assistant) :
    ∃ st2, handleAcpMessage now fid st wid (chunkMsg (some text)) =
        Except.ok (st2, [(wid, WEvent.message
          { role := Role.assistant, content := text, timestamp := now })]) ∧
      (mapLookup st2.workstreams wid).map Workstream.messageHistory =
        some (ws.messageHistory ++
          [{ role := Role.assistant, content := text, timestamp := now }]) := by
  rw [handleAcp_chunkMsg]
  unfold handleParsed
  rw [hws]
  dsimp only
  unfold textChunkStep
  rw [Option.getD_some, if_neg ht]
  cases hgl : ws.messageHistory.getLast? with
  | some lm =>
      dsimp only
      rw [if_neg (hlast lm hgl)]
      refine ⟨_, rfl, ?_⟩
      rw [lookup_update_insert]
      rfl
  | none =>
      dsimp only
      refine ⟨_, rfl, ?_⟩
      rw [lookup_update_insert]
      rfl

theorem chunk_empty_noop (now : Nat) (fid : String) (st : ManagerState)
    (wid : String) :
    handleAcpMessage now fid st wid (chunkMsg (some "")) =
      Except.ok (st, []) := by
  rw [handleAcp_chunkMsg]
  unfold handleParsed
  cases hws : mapLookup st.workstreams wid with
  | none => rfl
  | some ws =>
      dsimp only
      unfold textChunkStep
      rw [Option.getD_some, if_pos rfl]

def wsC2 : Workstream :=
  { id := "w", name := "w", task := "t", status := WStatus.running,
    worktreePath := none, branchName := none, acpSessionId := some "s",
    createdAt := 0, lastActivity := 0, currentActivity := "Ready",
    notifications := [], messageHistory := [] }

def stC2 : ManagerState := { workstreams := [("w", wsC2)] }

/-- Claim C2 counterexample: an agent_message_chunk whose text is the
empty string, delivered to a workstream with no trailing agent message,
creates no agent message at all (the handler skips falsy chunks), so
the claimed rule that every incoming chunk appends or creates a message
fails on empty chunks. -/
theorem claim_C2_cex :
    handleAcpMessage 5 "n" stC2 "w" (chunkMsg (some "")) =
      Except.ok (stC2, []) := by
  rfl

/-- Claim C2 as amended: processing any sequence of agent_message_chunk
events preserves invariant M1 (no two adjacent agent messages in any
messageHistory); a chunk with empty text is ignored entirely; each
nonempty chunk appends to the trailing agent message when one exists
and emits no message event, otherwise pushes a fresh agent message and
emits one message event; and the three chunks Hel, lo-space, world on a
workstream with no trailing agent message produce exactly one agent
message with content "Hello world" and exactly one observer message
event, for the first chunk only. -/
theorem claim_C2 :
    (∀ (now : Nat) (fid wid : String) (texts : List (Option String))
        (st : ManagerState), HistInv st →
      ∃ st2 evs, runMsgs now fid wid st (texts.map chunkMsg) =
        Except.ok (st2, evs) ∧ HistInv st2) ∧
    (∀ (now : Nat) (fid : String) (st : ManagerState) (wid : String),
      handleAcpMessage now fid st wid (chunkMsg (some "")) =
        Except.ok (st, [])) ∧
    (∀ (now : Nat) (fid : String) (st : ManagerState) (wid : String)
        (ws : Workstream) (text : String) (lm : WorkstreamMessage),
      mapLookup st.workstreams wid = some ws → text ≠ "" →
      ws.messageHistory.getLast? = some lm → lm.role = Role.assistant →
      ∃ st2, handleAcpMessage now fid st wid (chunkMsg (some text)) =
          Except.ok (st2, []) ∧
        (mapLookup st2.workstreams wid).map Workstream.messageHistory =
          some (ws.messageHistory.dropLast ++
            [{ lm with content := lm.content ++ text }])) ∧
    (∀ (now : Nat) (fid : String) (st : ManagerState) (wid : String)
        (ws : Workstream) (text : String),
      mapLookup st.workstreams wid = some ws → text ≠ "" →
      (∀ lm, ws.messageHistory.getLast? = some lm →
        lm.role ≠ Role.assistant) →
      ∃ st2, handleAcpMessage now fid st wid (chunkMsg (some text)) =
          Except.ok (st2, [(wid, WEvent.message
            { role := Role.assistant, content := text, timestamp := now })]) ∧
        (mapLookup st2.workstreams wid).map Workstream.messageHistory =
          some (ws.messageHistory ++
            [{ role := Role.assistant, content := text, timestamp := now }])) ∧
    (∃ st2, runMsgs 5 "n" "w" stC2
        [chunkMsg (some "Hel"), chunkMsg (some "lo "), chunkMsg (some "world")] =
      Except.ok (st2, [("w", WEvent.message
        { role := Role.assistant, content := "Hel", timestamp := 5 })]) ∧
      (mapLookup st2.workstreams "w").map Workstream.messageHistory =
        some [{ role := Role.assistant, content := "Hello world",
                timestamp := 5 }]) := by
  refine ⟨?_, ?_, ?_, ?_, ?_⟩
  · intro now fid wid texts st h
    exact runChunks_histInv now fid wid texts st h
  · intro now fid st wid
    exact chunk_empty_noop now fid st wid
  · intro now fid st wid ws text lm hws ht hgl hrole
    exact chunk_append_mech now fid st wid ws text lm hws ht hgl hrole
  · intro now fid st wid ws text hws ht hlast
    exact chunk_new_mech now fid st wid ws text hws ht hlast
  · exact ⟨_, rfl, rfl⟩

/-- Witness for claim C2: a concrete chunk sequence on a concrete
coordinator state, with the M1 invariant discharged by computation. -/
theorem claim_C2_witness :
    ∃ st2 evs, runMsgs 5 "n" "w" stC2
        ([some "a", some "", some "b"].map chunkMsg) =
      Except.ok (st2, evs) ∧ HistInv st2 := by
  refine claim_C2.1 5 "n" "w" [some "a", some "", some "b"] stC2 ?_
  intro wid ws h
  simp only [stC2, mapLookup] at h
  split at h
  · injection h with h2
    subst h2
    decide
  · cases h

/-! ## Tool events and invariant T1 (claim C1) -/

inductive ToolEvent
  | call (id title status : Option String)
  | update (id status : Option String)
deriving DecidableEq

/-- The session/update envelopes carrying tool_call and
tool_call_update notifications. -/
def toolMsg : ToolEvent → AcpMessage
  | ToolEvent.call id title status =>
      let upd : SessionUpdate :=
        { sessionUpdate := some "tool_call", id := id, title := title,
          status := status }
      let ps : SessionParams := { sessionId := some "sess", update := some upd }
      { method := some "session/update", params := some ps }
  | ToolEvent.update id status =>
      let fields : UpdateFields := { status := status }
      let upd : SessionUpdate :=
        { sessionUpdate := some "tool_call_update", id := id,
          fields := some fields }
      let ps : SessionParams := { sessionId := some "sess", update := some upd }
      { method := some "session/update", params := some ps }

theorem parse_toolMsg_call (id title status : Option String) :
    parseSessionUpdate (toolMsg (ToolEvent.call id title status)) =
      Except.ok (ParseResult.toolCall (some "sess") id title status) := by
  rfl

theorem parse_toolMsg_update (id status : Option String) :
    parseSessionUpdate (toolMsg (ToolEvent.update id status)) =
      Except.ok (ParseResult.toolUpdate (some "sess") id status none) := by
  rfl

theorem handleAcp_toolMsg_call (now : Nat) (fid : String) (st : ManagerState)
    (wid : String) (id title status : Option String) :
    handleAcpMessage now fid st wid (toolMsg (ToolEvent.call id title status)) =
      Except.ok (handleParsed now fid st wid none
        (ParseResult.toolCall (some "sess") id title status)) := by
  unfold handleAcpMessage
  rw [parse_toolMsg_call]
  rfl

theorem handleAcp_toolMsg_update (now : Nat) (fid : String) (st : ManagerState)
    (wid : String) (id status : Option String) :
    handleAcpMessage now fid st wid (toolMsg (ToolEvent.update id status)) =
      Except.ok (handleParsed now fid st wid none
        (ParseResult.toolUpdate (some "sess") id status none)) := by
  unfold handleAcpMessage
  rw [parse_toolMsg_update]
  rfl

/-- Invariant T1 over the whole tool table: every stored tool has
status pending. -/
def ToolsInv (st : ManagerState) : Prop :=
  ∀ wid tools k t, mapLookup st.activeTools wid = some tools →
    mapLookup tools k = some t → t.status = some "pending"

/-- Tool events whose statuses respect the documented alphabet:
tool_call events carry status pending, tool_call_update events carry
pending, completed or failed. -/
def goodToolEvent : ToolEvent → Bool
  | ToolEvent.call _ _ status => status == some "pending"
  | ToolEvent.update _ status =>
      status == some "pending" || status == some "completed" ||
        status == some "failed"

theorem toolsInv_updateWorkstream (now : Nat) (st : ManagerState)
    (wid : String) (f : Workstream → Workstream) (h : ToolsInv st) :
    ToolsInv (updateWorkstream now st wid f) := by
  intro wid' tools k t h1 h2
  rw [updateWorkstream_activeTools] at h1
  exact h wid' tools k t h1 h2

theorem handleParsed_toolCall_toolsInv (now : Nat) (fid : String)
    (st : ManagerState) (wid : String) (mid : Option JsonId)
    (s id title : Option String) (hinv : ToolsInv st) :
    ToolsInv (handleParsed now fid st wid mid
      (ParseResult.toolCall s id title (some "pending"))).1 := by
  unfold handleParsed
  cases hws : mapLookup st.workstreams wid with
  | none => exact hinv
  | some ws =>
      dsimp only
      cases htools : mapLookup st.activeTools wid with
      | none =>
          dsimp only
          exact toolsInv_updateWorkstream _ _ _ _ hinv
      | some tools =>
          dsimp only
          refine toolsInv_updateWorkstream _ _ _ _ ?_
          intro wid' tools' k t h1 h2
          by_cases hw : wid' = wid
          · subst hw
            dsimp only at h1
            rw [mapLookup_insert_self] at h1
            injection h1 with h1b
            subst h1b
            by_cases hk : k = id
            · subst hk
              rw [mapLookup_insert_self] at h2
              injection h2 with h2b
              subst h2b
              rfl
            · rw [mapLookup_insert_of_ne _ _ _ _ hk] at h2
              exact hinv _ tools k t htools h2
          · dsimp only at h1
            rw [mapLookup_insert_of_ne _ _ _ _ hw] at h1
            exact hinv wid' tools' k t h1 h2

theorem handleParsed_toolUpdate_toolsInv (now : Nat) (fid : String)
    (st : ManagerState) (wid : String) (mid : Option JsonId)
    (s id status : Option String)
    (hstatus : status = some "pending" ∨ status = some "completed" ∨
      status = some "failed")
    (hinv : ToolsInv st) :
    ToolsInv (handleParsed now fid st wid mid
      (ParseResult.toolUpdate s id status none)).1 := by
  unfold handleParsed
  cases hws : mapLookup st.workstreams wid with
  | none => exact hinv
  | some ws =>
      dsimp only
      cases htools : mapLookup st.activeTools wid with
      | none =>
          cases id with
          | none => exact hinv
          | some idStr => exact hinv
      | some tools =>
          cases id with
          | none => exact hinv
          | some idStr =>
              dsimp only
              by_cases hid : idStr = ""
              · rw [if_pos hid]
                exact hinv
              · rw [if_neg hid]
                cases htool : mapLookup tools (some idStr) with
                | none => exact hinv
                | some tool =>
                    dsimp only
                    intro wid' tools' k t h1 h2
                    by_cases hw : wid' = wid
                    · subst hw
                      dsimp only at h1
                      rw [mapLookup_insert_self] at h1
                      injection h1 with h1b
                      subst h1b
                      by_cases hterm : status = some "completed" ∨
                          status = some "failed"
                      · rw [if_pos hterm] at h2
                        by_cases hk : k = some idStr
                        · subst hk
                          rw [mapLookup_erase_self] at h2
                          cases h2
                        · rw [mapLookup_erase_of_ne _ _ _ hk] at h2
                          exact hinv _ tools k t htools h2
                      · rw [if_neg hterm] at h2
                        have hpend : status = some "pending" := by
                          rcases hstatus with h | h | h
                          · exact h
                          · exact absurd (Or.inl h) hterm
                          · exact absurd (Or.inr h) hterm
                        by_cases hk : k = some idStr
                        · subst hk
                          rw [mapLookup_insert_self] at h2
                          injection h2 with h2b
                          subst h2b
                          exact hpend
                        · rw [mapLookup_insert_of_ne _ _ _ _ hk] at h2
                          exact hinv _ tools k t htools h2
                    · dsimp only at h1
                      rw [mapLookup_insert_of_ne _ _ _ _ hw] at h1
                      exact hinv wid' tools' k t h1 h2

theorem runTools_toolsInv (now : Nat) (fid wid : String)
    (evs : List ToolEvent) :
    ∀ st : ManagerState, ToolsInv st →
    (∀ e ∈ evs, goodToolEvent e = true) →
    ∃ st2 out, runMsgs now fid wid st (evs.map toolMsg) =
      Except.ok (st2, out) ∧ ToolsInv st2 := by
  induction evs with
  | nil =>
      intro st h _
      exact ⟨st, [], rfl, h⟩
  | cons e rest ih =>
      intro st h hg
      have hge := hg e (List.mem_cons_self _ _)
      have hgrest : ∀ x ∈ rest, goodToolEvent x = true :=
        fun x hx => hg x (List.mem_cons_of_mem _ hx)
      cases e with
      | call id title status =>
          have hstat : status = some "pending" := by
            simpa [goodToolEvent] using hge
          subst hstat
          obtain ⟨st2, out2, hrun, hinv2⟩ := ih
            (handleParsed now fid st wid none
              (ParseResult.toolCall (some "sess") id title (some "pending"))).1
            (handleParsed_toolCall_toolsInv now fid st wid none
              (some "sess") id title h) hgrest
          refine ⟨st2, (handleParsed now fid st wid none
            (ParseResult.toolCall (some "sess") id title
              (some "pending"))).2 ++ out2, ?_, hinv2⟩
          show runMsgs now fid wid st
            (toolMsg (ToolEvent.call id title (some "pending")) ::
              rest.map toolMsg) = _
          unfold runMsgs
          rw [handleAcp_toolMsg_call]
          dsimp only
          rw [hrun]
      | update id status =>
          have hstat : status = some "pending" ∨ status = some "completed" ∨
              status = some "failed" := by
            simpa [goodToolEvent, Bool.or_eq_true, beq_iff_eq, or_assoc]
              using hge
          obtain ⟨st2, out2, hrun, hinv2⟩ := ih
            (handleParsed now fid st wid none
              (ParseResult.toolUpdate (some "sess") id status none)).1
            (handleParsed_toolUpdate_toolsInv now fid st wid none
              (some "sess") id status hstat h) hgrest
          refine ⟨st2, (handleParsed now fid st wid none
            (ParseResult.toolUpdate (some "sess") id status none)).2 ++ out2,
            ?_, hinv2⟩
          show runMsgs now fid wid st
            (toolMsg (ToolEvent.update id status) :: rest.map toolMsg) = _
          unfold runMsgs
          rw [handleAcp_toolMsg_update]
          dsimp only
          rw [hrun]

def stC1 : ManagerState :=
  { workstreams := [("w", wsC2)], activeTools := [("w", [])] }

def toolC1 : ToolCallInfo :=
  { id := some "t1", title := some "run", status := some "completed" }

/-- Claim C1 counterexample: a tool_call event carrying status
completed is inserted into activeTools with that status and stays
there, so tool_call does not insert with status pending and a tool id
present in activeTools[w] need not have status pending. -/
theorem claim_C1_cex :
    Except.map (fun p => mapLookup (Prod.fst p).activeTools "w")
      (runMsgs 0 "n" "w" stC1
        [toolMsg (ToolEvent.call (some "t1") (some "run") (some "completed"))]) =
      Except.ok (some [(some "t1", toolC1)]) ∧
    toolC1.status ≠ some "pending" := by
  exact ⟨rfl, by decide⟩

/-- Claim C1 as amended: a tool_call event inserts the tool with the
status carried by the event, not unconditionally pending; a tool_update
with a nonempty id carrying a terminal status (completed or failed)
leaves that id absent from activeTools[w]; and provided every tool_call
event carries status pending and every tool_update carries a status
among pending, completed and failed, every tool id present in
activeTools[w] has status pending after any sequence of inbound tool
events. -/
theorem claim_C1 :
    (∀ (now : Nat) (fid wid : String) (evs : List ToolEvent)
        (st : ManagerState), ToolsInv st →
      (∀ e ∈ evs, goodToolEvent e = true) →
      ∃ st2 out, runMsgs now fid wid st (evs.map toolMsg) =
        Except.ok (st2, out) ∧ ToolsInv st2) ∧
    (∀ (now : Nat) (fid : String) (st : ManagerState) (wid : String)
        (ws : Workstream) (tools : List (Option String × ToolCallInfo))
        (id title status : Option String),
      mapLookup st.workstreams wid = some ws →
      mapLookup st.activeTools wid = some tools →
      ∃ st2 evs, handleAcpMessage now fid st wid
          (toolMsg (ToolEvent.call id title status)) =
        Except.ok (st2, evs) ∧
        mapLookup st2.activeTools wid =
          some (mapInsert tools id
            { id := id, title := title, status := status })) ∧
    (∀ (now : Nat) (fid : String) (st : ManagerState) (wid : String)
        (ws : Workstream) (s : String) (status : Option String),
      mapLookup st.workstreams wid = some ws → s ≠ "" →
      (status = some "completed" ∨ status = some "failed") →
      ∃ st2 evs, handleAcpMessage now fid st wid
          (toolMsg (ToolEvent.update (some s) status)) =
        Except.ok (st2, evs) ∧
        ∀ tools2, mapLookup st2.activeTools wid = some tools2 →
          mapLookup tools2 (some s) = none) := by
  refine ⟨?_, ?_, ?_⟩
  · intro now fid wid evs st h hg
    exact runTools_toolsInv now fid wid evs st h hg
  · intro now fid st wid ws tools id title status hws htools
    rw [handleAcp_toolMsg_call]
    unfold handleParsed
    rw [hws]
    dsimp only
    rw [htools]
    dsimp only
    refine ⟨_, _, rfl, ?_⟩
    rw [updateWorkstream_activeTools]
    dsimp only
    exact mapLookup_insert_self _ _ _
  · intro now fid st wid ws s status hws hid hterm
    rw [handleAcp_toolMsg_update]
    unfold handleParsed
    rw [hws]
    dsimp only
    cases htools : mapLookup st.activeTools wid with
    | none =>
        dsimp only
        refine ⟨_, _, rfl, ?_⟩
        intro tools2 h2
        rw [htools] at h2
        cases h2
    | some tools =>
        dsimp only
        rw [if_neg hid]
        cases htool : mapLookup tools (some s) with
        | none =>
            dsimp only
            refine ⟨_, _, rfl, ?_⟩
            intro tools2 h2
            rw [htools] at h2
            injection h2 with h2b
            subst h2b
            exact htool
        | some tool =>
            dsimp only
            rw [if_pos hterm]
            refine ⟨_, _, rfl, ?_⟩
            intro tools2 h2
            dsimp only at h2
            rw [mapLookup_insert_self] at h2
            injection h2 with h2b
            subst h2b
            exact mapLookup_erase_self _ _

/-- Witness for claim C1: the pending-then-completed tool lifecycle on
a concrete coordinator state, with both hypotheses discharged by
computation. -/
theorem claim_C1_witness :
    ∃ st2 out, runMsgs 0 "n" "w" stC1
        ([ToolEvent.call (some "t1") (some "run") (some "pending"),
          ToolEvent.update (some "t1") (some "completed")].map toolMsg) =
      Except.ok (st2, out) ∧ ToolsInv st2 := by
  refine claim_C1.1 0 "n" "w" _ stC1 ?_ ?_
  · intro wid tools k t h1 h2
    simp only [stC1, mapLookup] at h1
    split at h1
    · injection h1 with h1b
      subst h1b
      simp [mapLookup] at h2
    · cases h1
  · intro e he
    simp only [List.mem_cons, List.not_mem_nil, or_false] at he
    rcases he with rfl | rfl <;> decide

end Goose
